import Mathlib

/-!
# Terascout — shallow embedding and verification

A shallow embedding of the Terascout worker (Cloudflare Workers + Durable
Objects + Workflows) covering:

* the configuration constants (`worker/config.ts`, `SCOUT_CONFIG`);
* `hashText` from `worker/lib/fetcher.ts` (SHA-256 of the UTF-8 bytes of a
  string, rendered as lowercase hex), implemented in full;
* the per-scout state store `ScoutDO` (`worker/scout-do.ts`): its SQLite
  tables are modelled as Lean lists of rows, its operations as pure
  functions from store state to store state plus response;
* the response post-processing of the model-call wrappers `analyzeChange`
  and `isDuplicateEvent` (`worker/lib/ai.ts`); the model itself and
  `JSON.parse` are external, so they enter as oracle parameters;
* the polling-loop engine `ScoutWorkflow.run` (`worker/scout-workflow.ts`),
  embedded as a function over per-cycle / per-source step outcomes
  (fetch results, analyzer verdicts, dedup verdicts, wall-clock readings),
  producing the final store state and a trace of performed actions;
* the control-plane create path.  The `expiresAt` computation of
  `handleCreateScout` is not present in the bundled `worker/index.ts`
  (that file predates the `expiresAt` feature and writes a config without
  the field required by `worker/types.ts`); it is modelled from the spec
  where noted.

ISO-8601 instants are modelled as integer milliseconds since the epoch
where arithmetic on them matters, rendered with `toString` where the store
keeps them as strings; opaque timestamp strings stay strings.
-/

namespace Terascout

/-! ## Configuration constants (`worker/config.ts`, `SCOUT_CONFIG`) -/

/-- Maximum emails a single scout can send per day. -/
def maxEmailsPerScoutPerDay : Nat := 10

/-- Default scout lifetime if no end time is specified (hours). -/
def defaultLifetimeHours : Nat := 72

/-- Maximum scout lifetime allowed (hours). -/
def maxLifetimeHours : Nat := 168

/-- Max polling cycles per workflow run. -/
def maxCycles : Nat := 200

/-- Max stored text per source snapshot. -/
def maxSnapshotTextLength : Nat := 5000

/-- Max text length sent to the model for analysis. -/
def maxAiTextLength : Nat := 2500

/-- Max recent events to check for deduplication. -/
def dedupeLookback : Nat := 5

/-- Milliseconds per hour. -/
def msPerHour : Nat := 3600000

/-! ## SHA-256 (`crypto.subtle.digest("SHA-256", ...)` as used by `hashText`)

Machine words are `Nat`s kept below `2 ^ 32` by explicit reduction. -/

/-- `2 ^ 32`, the modulus for 32-bit words. -/
def pow32 : Nat := 4294967296

/-- 32-bit addition. -/
def add32 (a b : Nat) : Nat := (a + b) % pow32

/-- 32-bit right rotation. -/
def rotr32 (n x : Nat) : Nat := ((x >>> n) ||| ((x <<< (32 - n)) % pow32)) % pow32

/-- Logical right shift. -/
def shr32 (n x : Nat) : Nat := x >>> n

/-- 32-bit complement. -/
def not32 (x : Nat) : Nat := x ^^^ 4294967295

/-- The SHA-256 round constants. -/
def sha256K : List Nat :=
  [1116352408, 1899447441, 3049323471, 3921009573, 961987163, 1508970993,
   2453635748, 2870763221, 3624381080, 310598401, 607225278, 1426881987,
   1925078388, 2162078206, 2614888103, 3248222580, 3835390401, 4022224774,
   264347078, 604807628, 770255983, 1249150122, 1555081692, 1996064986,
   2554220882, 2821834349, 2952996808, 3210313671, 3336571891, 3584528711,
   113926993, 338241895, 666307205, 773529912, 1294757372, 1396182291,
   1695183700, 1986661051, 2177026350, 2456956037, 2730485921, 2820302411,
   3259730800, 3345764771, 3516065817, 3600352804, 4094571909, 275423344,
   430227734, 506948616, 659060556, 883997877, 958139571, 1322822218,
   1537002063, 1747873779, 1955562222, 2024104815, 2227730452, 2361852424,
   2428436474, 2756734187, 3204031479, 3329325298]

/-- The eight working variables of the compression function. -/
structure Sha256State where
  a : Nat
  b : Nat
  c : Nat
  d : Nat
  e : Nat
  f : Nat
  g : Nat
  h : Nat

/-- The SHA-256 initial hash value. -/
def sha256Init : Sha256State :=
  ⟨1779033703, 3144134277, 1013904242, 2773480762, 1359893119, 2600822924, 528734635, 1541459225⟩

/-- Split a list into chunks of `n` elements (fuel-bounded; called with
fuel = length so every element is consumed). -/
def chunksAux (n : Nat) : Nat → List Nat → List (List Nat)
  | 0, _ => []
  | _, [] => []
  | fuel + 1, l => l.take n :: chunksAux n fuel (l.drop n)

/-- Split a list into chunks of `n` elements. -/
def chunks (n : Nat) (l : List Nat) : List (List Nat) :=
  chunksAux n l.length l

/-- Big-endian 32-bit word from four bytes. -/
def wordOfBytes : List Nat → Nat
  | [b0, b1, b2, b3] => ((b0 * 256 + b1) * 256 + b2) * 256 + b3
  | _ => 0

/-- Message schedule: extend the 16 block words to 64. -/
def extendW (w : Array Nat) : Array Nat :=
  (List.range 48).foldl
    (fun w _ =>
      let i := w.size
      let w15 := w.getD (i - 15) 0
      let w2 := w.getD (i - 2) 0
      let s0 := (rotr32 7 w15) ^^^ (rotr32 18 w15) ^^^ (shr32 3 w15)
      let s1 := (rotr32 17 w2) ^^^ (rotr32 19 w2) ^^^ (shr32 10 w2)
      w.push (add32 (add32 (w.getD (i - 16) 0) s0) (add32 (w.getD (i - 7) 0) s1)))
    w

/-- One round of the SHA-256 compression function, fed `k[i] + w[i]`. -/
def sha256Round (st : Sha256State) (kw : Nat) : Sha256State :=
  let S1 := (rotr32 6 st.e) ^^^ (rotr32 11 st.e) ^^^ (rotr32 25 st.e)
  let ch := (st.e &&& st.f) ^^^ ((not32 st.e) &&& st.g)
  let temp1 := add32 st.h (add32 S1 (add32 ch kw))
  let S0 := (rotr32 2 st.a) ^^^ (rotr32 13 st.a) ^^^ (rotr32 22 st.a)
  let maj := (st.a &&& st.b) ^^^ (st.a &&& st.c) ^^^ (st.b &&& st.c)
  let temp2 := add32 S0 maj
  ⟨add32 temp1 temp2, st.a, st.b, st.c, add32 st.d temp1, st.e, st.f, st.g⟩

/-- Process one 64-byte block. -/
def sha256Block (st : Sha256State) (block : List Nat) : Sha256State :=
  let w := extendW ((chunks 4 block).map wordOfBytes).toArray
  let kws := (sha256K.zip w.toList).map (fun p => add32 p.1 p.2)
  let r := kws.foldl sha256Round st
  ⟨add32 st.a r.a, add32 st.b r.b, add32 st.c r.c, add32 st.d r.d,
   add32 st.e r.e, add32 st.f r.f, add32 st.g r.g, add32 st.h r.h⟩

/-- SHA-256 padding: append `0x80`, zeros, and the 64-bit big-endian bit
length, reaching a multiple of 64 bytes. -/
def sha256Pad (msg : List Nat) : List Nat :=
  let len := msg.length
  let k := (55 + 64 - (len % 64)) % 64
  let bitLen := 8 * len
  msg ++ [0x80] ++ List.replicate k 0 ++
    [(bitLen >>> 56) % 256, (bitLen >>> 48) % 256, (bitLen >>> 40) % 256, (bitLen >>> 32) % 256,
     (bitLen >>> 24) % 256, (bitLen >>> 16) % 256, (bitLen >>> 8) % 256, bitLen % 256]

/-- SHA-256 of a byte sequence: the eight 32-bit digest words. -/
def sha256Words (msg : List Nat) : List Nat :=
  let st := (chunks 64 (sha256Pad msg)).foldl sha256Block sha256Init
  [st.a, st.b, st.c, st.d, st.e, st.f, st.g, st.h]

/-- A lowercase hex digit. -/
def hexDigit (n : Nat) : Char :=
  if n < 10 then Char.ofNat (48 + n) else Char.ofNat (87 + n)

/-- Lowercase hex of one byte, two digits (`b.toString(16).padStart(2, "0")`). -/
def byteHex (b : Nat) : List Char :=
  [hexDigit (b / 16), hexDigit (b % 16)]

/-- A 32-bit word as four big-endian bytes. -/
def wordBytes (w : Nat) : List Nat :=
  [(w >>> 24) % 256, (w >>> 16) % 256, (w >>> 8) % 256, w % 256]

/-- Lowercase hex SHA-256 digest of a byte sequence. -/
def sha256Hex (msg : List Nat) : String :=
  String.mk (((sha256Words msg).flatMap wordBytes).flatMap byteHex)

/-- UTF-8 encoding of one Unicode code point. -/
def utf8EncodeChar (c : Nat) : List Nat :=
  if c < 0x80 then [c]
  else if c < 0x800 then [0xc0 ||| (c >>> 6), 0x80 ||| (c &&& 0x3f)]
  else if c < 0x10000 then
    [0xe0 ||| (c >>> 12), 0x80 ||| ((c >>> 6) &&& 0x3f), 0x80 ||| (c &&& 0x3f)]
  else
    [0xf0 ||| (c >>> 18), 0x80 ||| ((c >>> 12) &&& 0x3f),
     0x80 ||| ((c >>> 6) &&& 0x3f), 0x80 ||| (c &&& 0x3f)]

/-- UTF-8 bytes of a string, as `new TextEncoder().encode(text)` produces. -/
def utf8Encode (s : String) : List Nat :=
  s.data.flatMap (fun c => utf8EncodeChar c.toNat)

/-- `hashText` from `worker/lib/fetcher.ts`: SHA-256 of the UTF-8 bytes of
the string, rendered as lowercase hex. -/
def hashText (s : String) : String :=
  sha256Hex (utf8Encode s)

/-! ## Data model (`worker/types.ts` and the `ScoutDO` SQLite schema)

Each SQLite table of `ScoutDO.migrate` becomes a list of row structures;
`INTEGER` columns holding booleans stay `Nat` (`0` / `1`) as in the schema.
The `highlights` and `articles` columns hold `JSON.stringify` of the values;
serialization is invertible here, so the rows carry the structured values
directly. -/

/-- A source row of the `sources` table.  `lastHash`, `lastText` and
`lastCheckedAt` default to `""`. -/
structure SourceRow where
  url : String
  label : String
  strategy : String
  lastHash : String
  lastText : String
  lastCheckedAt : String
deriving DecidableEq, Repr

/-- A source as carried in configs (`worker/types.ts`, `Source`). -/
structure Source where
  url : String
  label : String
  strategy : String
deriving DecidableEq, Repr

/-- An article attached to an event (`worker/types.ts`, `Article`). -/
structure Article where
  title : String
  url : String
  snippet : String
  imageUrl : Option String
deriving DecidableEq, Repr

/-- A row of the `events` table. -/
structure EventRow where
  eventId : String
  sourceUrl : String
  sourceLabel : String
  summary : String
  tldr : String
  highlights : List String
  articles : List Article
  isBreaking : Nat
  detectedAt : String
  notified : Nat
deriving DecidableEq, Repr

/-- A row of the `email_counter` table. -/
structure CounterRow where
  dateKey : String
  count : Nat
deriving DecidableEq, Repr

/-- The single row of the `config` table. -/
structure ConfigRow where
  scoutId : String
  query : String
  email : String
  createdAt : String
  expiresAt : String
deriving DecidableEq, Repr

/-- The SQLite storage of one `ScoutDO` instance. -/
structure StoreState where
  config : Option ConfigRow
  sources : List SourceRow
  events : List EventRow
  emailCounter : List CounterRow
deriving DecidableEq, Repr

/-- The empty storage of a fresh Durable Object. -/
def emptyStore : StoreState := ⟨none, [], [], []⟩

/-! ## Store operations (`worker/scout-do.ts`, `ScoutDO`) -/

/-- The body accepted by `ScoutDO.saveConfig` (a `ScoutConfig`); `expiresAt`
is optional there (`expiresAt || ""`). -/
structure ScoutConfigIn where
  scoutId : String
  query : String
  email : String
  createdAt : String
  expiresAt : Option String
  sources : List Source
deriving DecidableEq, Repr

/-- `INSERT OR REPLACE INTO sources (url, label, strategy)`: on a primary-key
conflict the whole row is replaced, so the unspecified columns return to
their `''` defaults; otherwise a fresh row is appended. -/
def upsertSource (src : Source) : List SourceRow → List SourceRow
  | [] => [⟨src.url, src.label, src.strategy, "", "", ""⟩]
  | r :: rs =>
    if r.url == src.url then ⟨src.url, src.label, src.strategy, "", "", ""⟩ :: rs
    else r :: upsertSource src rs

/-- `ScoutDO.saveConfig`: upsert the config row, then insert each source. -/
def saveConfig (b : ScoutConfigIn) (s : StoreState) : StoreState × Bool :=
  (⟨some ⟨b.scoutId, b.query, b.email, b.createdAt, b.expiresAt.getD ""⟩,
    b.sources.foldl (fun rows src => upsertSource src rows) s.sources,
    s.events, s.emailCounter⟩, true)

/-- The config returned by `ScoutDO.getConfig`: the config row plus the
`sources` table (`worker/types.ts`, `ScoutConfig`). -/
structure ScoutConfigOut where
  scoutId : String
  query : String
  email : String
  createdAt : String
  expiresAt : String
  sources : List Source
deriving DecidableEq, Repr

/-- `ScoutDO.getConfig`: `none` models the 404 `No config` response. -/
def getConfig (s : StoreState) : Option ScoutConfigOut :=
  s.config.map (fun c =>
    ⟨c.scoutId, c.query, c.email, c.createdAt, c.expiresAt,
     s.sources.map (fun r => ⟨r.url, r.label, r.strategy⟩)⟩)

/-- A snapshot as returned by `ScoutDO.getSnapshot` (`worker/types.ts`,
`SourceSnapshot`). -/
structure SourceSnapshot where
  url : String
  contentHash : String
  text : String
  checkedAt : String
deriving DecidableEq, Repr

/-- `ScoutDO.getSnapshot`: `SELECT ... FROM sources WHERE url = ?`, aliasing
`lastHash AS contentHash`, `lastText AS text`, `lastCheckedAt AS checkedAt`;
`none` models the JSON `null` response for an absent row. -/
def getSnapshot (s : StoreState) (sourceUrl : String) : Option SourceSnapshot :=
  (s.sources.find? (fun r => r.url == sourceUrl)).map
    (fun r => ⟨r.url, r.lastHash, r.lastText, r.lastCheckedAt⟩)

/-- The body accepted by `ScoutDO.saveSnapshot`. -/
structure SnapshotIn where
  url : String
  contentHash : String
  text : String
deriving DecidableEq, Repr

/-- `ScoutDO.saveSnapshot`: `UPDATE sources SET lastHash, lastText,
lastCheckedAt WHERE url = ?`, capping the stored text at 5000 units
(`body.text.slice(0, 5000)`); matching no row leaves the table unchanged.
The response is always `{ok: true}`. -/
def saveSnapshot (b : SnapshotIn) (now : String) (s : StoreState) : StoreState × Bool :=
  (⟨s.config,
    s.sources.map (fun r =>
      if r.url == b.url then
        ⟨r.url, r.label, r.strategy, b.contentHash, b.text.take maxSnapshotTextLength, now⟩
      else r),
    s.events, s.emailCounter⟩, true)

/-- The body accepted by `ScoutDO.recordEvent`. -/
structure EventIn where
  eventId : String
  sourceUrl : String
  sourceLabel : String
  summary : String
  tldr : String
  highlights : List String
  articles : List Article
  isBreaking : Bool
  detectedAt : String
deriving DecidableEq, Repr

/-- The `{ok, duplicate}` response of `ScoutDO.recordEvent`. -/
structure RecordResult where
  ok : Bool
  duplicate : Bool
deriving DecidableEq, Repr

/-- `ScoutDO.recordEvent`: if a row with this `eventId` exists the call is a
no-op answering `{ok: true, duplicate: true}`; otherwise the row is inserted
with `notified = 0`. -/
def recordEvent (e : EventIn) (s : StoreState) : StoreState × RecordResult :=
  if s.events.any (fun r => r.eventId == e.eventId) then
    (s, ⟨true, true⟩)
  else
    (⟨s.config, s.sources,
      s.events ++ [⟨e.eventId, e.sourceUrl, e.sourceLabel, e.summary, e.tldr,
                   e.highlights, e.articles, if e.isBreaking then 1 else 0,
                   e.detectedAt, 0⟩],
      s.emailCounter⟩, ⟨true, false⟩)

/-- An event as returned by `ScoutDO.getEvents` (`worker/types.ts`,
`ScoutEvent`): integer flags become booleans via `Boolean(...)`. -/
structure ScoutEvent where
  eventId : String
  sourceUrl : String
  sourceLabel : String
  summary : String
  tldr : String
  highlights : List String
  articles : List Article
  isBreaking : Bool
  detectedAt : String
  notified : Bool
deriving DecidableEq, Repr

/-- Insert a row into a list kept in descending `detectedAt` order. -/
def insertDescByDetectedAt (r : EventRow) : List EventRow → List EventRow
  | [] => [r]
  | x :: xs =>
    if x.detectedAt < r.detectedAt then r :: x :: xs
    else x :: insertDescByDetectedAt r xs

/-- Sort rows by `detectedAt` descending (`ORDER BY detectedAt DESC`). -/
def sortDescByDetectedAt (l : List EventRow) : List EventRow :=
  l.foldr insertDescByDetectedAt []

/-- `ScoutDO.getEvents`: all events ordered by `detectedAt` descending,
mapped to `ScoutEvent`s. -/
def getEvents (s : StoreState) : List ScoutEvent :=
  (sortDescByDetectedAt s.events).map (fun r =>
    ⟨r.eventId, r.sourceUrl, r.sourceLabel, r.summary, r.tldr, r.highlights,
     r.articles, r.isBreaking != 0, r.detectedAt, r.notified != 0⟩)

/-- The `{dateKey, count}` response of the email-counter reads. -/
structure EmailCount where
  dateKey : String
  count : Nat
deriving DecidableEq, Repr

/-- `ScoutDO.getEmailCount`: today's row or a default count of 0.  `today`
is the `YYYY-MM-DD` UTC date string computed at the call. -/
def getEmailCount (today : String) (s : StoreState) : EmailCount :=
  ⟨today, ((s.emailCounter.find? (fun r => r.dateKey == today)).map (fun r => r.count)).getD 0⟩

/-- `ScoutDO.incrementEmailCount`: upsert today's row (`count + 1`, starting
at 1), delete every other date row, and return today's row. -/
def incrementEmailCount (today : String) (s : StoreState) : StoreState × EmailCount :=
  let upserted :=
    if s.emailCounter.any (fun r => r.dateKey == today) then
      s.emailCounter.map (fun r => if r.dateKey == today then ⟨r.dateKey, r.count + 1⟩ else r)
    else s.emailCounter ++ [⟨today, 1⟩]
  let kept := upserted.filter (fun r => r.dateKey == today)
  (⟨s.config, s.sources, s.events, kept⟩,
   ⟨today, ((kept.find? (fun r => r.dateKey == today)).map (fun r => r.count)).getD 1⟩)

/-- `ScoutDO.wipe`: delete all rows of all four tables. -/
def wipe (_s : StoreState) : StoreState × Bool :=
  (emptyStore, true)

/-! ## Model-call wrappers (`worker/lib/ai.ts`)

The language model and `JSON.parse` are external services.  The wrappers
are embedded as the processing they apply to an arbitrary response text:
the brace extraction implements the regex matches literally, and
`JSON.parse` plus field typing enters as an oracle returning `none` when
parsing throws or yields no usable object. -/

/-- An opening brace. -/
def lbrace : Char := Char.ofNat 123

/-- A closing brace. -/
def rbrace : Char := Char.ofNat 125

/-- The greedy match `text.match(/\x7b[\s\S]*\x7d/)` used by
`analyzeChange`: from the first opening brace to the last closing brace
after it, `none` when no such substring exists. -/
def extractBracedGreedy (s : String) : Option String :=
  match s.data.findIdx? (fun c => c == lbrace) with
  | none => none
  | some i =>
    let tail := s.data.drop i
    match tail.reverse.findIdx? (fun c => c == rbrace) with
    | none => none
    | some j => some (String.mk (tail.take (tail.length - j)))

/-- The lazy match `text.match(/\x7b[\s\S]*?\x7d/)` used by
`isDuplicateEvent` and `extractSearchQueryWithTime`: from the first opening
brace to the first closing brace after it. -/
def extractBracedLazy (s : String) : Option String :=
  match s.data.findIdx? (fun c => c == lbrace) with
  | none => none
  | some i =>
    let tail := s.data.drop i
    match tail.findIdx? (fun c => c == rbrace) with
    | none => none
    | some j => some (String.mk (tail.take (j + 1)))

/-- The result type of `analyzeChange` (`worker/types.ts`,
`ChangeAnalysisResult`). -/
structure ChangeAnalysisResult where
  is_event : Bool
  summary : String
  tldr : String
  highlights : List String
  articles : List Article
  is_breaking : Bool
deriving DecidableEq, Repr

/-- An article as it appears in the parsed JSON, every field possibly
absent. -/
structure ArticleJson where
  title : Option String
  url : Option String
  snippet : Option String
  imageUrl : Option String
deriving DecidableEq, Repr

/-- The JSON object `analyzeChange` expects from the model, every field
possibly absent. -/
structure AnalysisJson where
  is_event : Option Bool
  tldr : Option String
  summary : Option String
  highlights : Option (List String)
  articles : Option (List ArticleJson)
  is_breaking : Option Bool
deriving DecidableEq, Repr

/-- The safe default `analyzeChange` returns when no JSON object can be
extracted or parsing throws. -/
def parseFailAnalysis : ChangeAnalysisResult :=
  ⟨false, "Could not parse AI response", "", [], [], false⟩

/-- The article sanitization of `analyzeChange`: missing fields default,
an empty `imageUrl` becomes absent. -/
def sanitizeArticle (a : ArticleJson) : Article :=
  ⟨a.title.getD "Untitled", a.url.getD "", a.snippet.getD "",
   match a.imageUrl with
   | some u => if u == "" then none else some u
   | none => none⟩

/-- `analyzeChange` from `worker/lib/ai.ts`, as a function of the model
response text.  `jsonParse` is the external `JSON.parse` plus field
typing (`none` = throw). -/
def analyzeChange (jsonParse : String → Option AnalysisJson)
    (responseText : String) : ChangeAnalysisResult :=
  match extractBracedGreedy responseText with
  | none => parseFailAnalysis
  | some jsonStr =>
    match jsonParse jsonStr with
    | none => parseFailAnalysis
    | some p =>
      let articles :=
        ((p.articles.getD []).filter (fun a => a.title.getD "" != "")).map sanitizeArticle
      let summ := if p.summary.getD "" == "" then "Change detected" else p.summary.getD ""
      ⟨p.is_event.getD false, summ,
       if p.tldr.getD "" == "" then summ.take 80 else p.tldr.getD "",
       (p.highlights.getD []).filter (fun h => h != ""),
       articles, p.is_breaking.getD false⟩

/-- The JSON object `isDuplicateEvent` expects from the model. -/
structure DupJson where
  is_duplicate : Option Bool
deriving DecidableEq, Repr

/-- `isDuplicateEvent` from `worker/lib/ai.ts`, as a function of the model
response text: `false` when there are no previous summaries, no JSON object
can be extracted, or parsing throws. -/
def isDuplicateEvent (jsonParse : String → Option DupJson)
    (responseText : String) (previousSummaries : List String) : Bool :=
  if previousSummaries.isEmpty then false
  else
    match extractBracedLazy responseText with
    | none => false
    | some jsonStr =>
      match jsonParse jsonStr with
      | none => false
      | some p => p.is_duplicate.getD false

/-! ## The polling-loop engine (`worker/scout-workflow.ts`, `ScoutWorkflow.run`)

One workflow cycle is a pure function of the store state and of the per-step
external outcomes (fetch, analyzer verdict, dedup verdict, clock readings),
supplied as oracles.  Besides the new store state it yields the trace of
side-effecting actions the cycle performed. -/

/-- The `{text, hash}` outcome of a successful fetch step. -/
structure FetchResult where
  text : String
  hash : String
deriving DecidableEq, Repr

/-- The external outcomes one source consumes in one cycle.  `fetch = none`
models the fetch step failing after all retries (caught, source skipped).
`analysis` and `isDup` are the analyzer and dedup model verdicts;
`snapNow`, `detectedAt` and `emailDay` are the clock readings at the
snapshot write, the event record and the counter increment. -/
structure SrcOracle where
  fetch : Option FetchResult
  analysis : ChangeAnalysisResult
  isDup : Bool
  snapNow : String
  detectedAt : String
  emailDay : String

/-- One side-effecting action of a cycle, as recorded in the trace. -/
inductive Action where
  | savedSnapshot (url hash text : String)
  | analyzed (oldText newText query : String)
  | recordedEvent (eventId : String)
  | emailed (eventId : String)
deriving DecidableEq, Repr

/-- The per-source body of `ScoutWorkflow.run` (steps `fetch-…` through
`email-…`): skip on fetch failure; read the prior snapshot; write the new
snapshot regardless; on the baseline poll (`oldHash === ""`) stop; otherwise
analyze, dedupe, compute the event id `hashText(url|oldHash|newHash)`,
record the event, and if it was newly inserted and the cycle-start rate
check passed, send the email and increment the counter in one step. -/
def processSource (query : String) (canSendEmail : Bool) (src : Source)
    (o : SrcOracle) (s : StoreState) : StoreState × List Action :=
  match o.fetch with
  | none => (s, [])
  | some fr =>
    let lastSnapshot := getSnapshot s src.url
    let oldHash := ((lastSnapshot.map (fun t => t.contentHash)).getD "")
    let isFirstPoll := oldHash == ""
    let s1 := (saveSnapshot ⟨src.url, fr.hash, fr.text⟩ o.snapNow s).1
    let tr1 := [Action.savedSnapshot src.url fr.hash fr.text]
    if isFirstPoll then (s1, tr1)
    else
      let analysis := o.analysis
      let tr2 := tr1 ++ [Action.analyzed ((lastSnapshot.map (fun t => t.text)).getD "") fr.text query]
      if analysis.is_event then
        if o.isDup then (s1, tr2)
        else
          let eventId := hashText (src.url ++ "|" ++ oldHash ++ "|" ++ fr.hash)
          let rec1 := recordEvent ⟨eventId, src.url, src.label, analysis.summary,
            analysis.tldr, analysis.highlights, analysis.articles,
            analysis.is_breaking, o.detectedAt⟩ s1
          let tr3 := tr2 ++ [Action.recordedEvent eventId]
          if rec1.2.ok && !rec1.2.duplicate && canSendEmail then
            ((incrementEmailCount o.emailDay rec1.1).1, tr3 ++ [Action.emailed eventId])
          else (rec1.1, tr3)
      else (s1, tr2)

/-- Process the sources of a cycle in order, source `i` consuming oracle
`os i`. -/
def processSources (query : String) (canSendEmail : Bool) (os : Nat → SrcOracle) :
    List Source → Nat → StoreState → StoreState × List Action
  | [], _, s => (s, [])
  | src :: rest, i, s =>
    let p := processSource query canSendEmail src (os i) s
    let q := processSources query canSendEmail os rest (i + 1) p.1
    (q.1, p.2 ++ q.2)

/-- The external outcomes one cycle consumes: the wall clock at the
expiration check, the UTC date key at the counter read, and the per-source
oracles. -/
structure CycleOracle where
  nowMs : Int
  today : String
  src : Nat → SrcOracle

/-- One cycle of `ScoutWorkflow.run`: load the config (`none` when the
load fails, ending the run), return on expiration (`new Date(expiresAt)`
modelled by `dateMs`), read today's email count once, compute
`canSendEmail`, then process every source. -/
def runCycle (dateMs : String → Int) (o : CycleOracle) (s : StoreState) :
    Option (StoreState × List Action) :=
  match getConfig s with
  | none => none
  | some config =>
    if config.expiresAt ≠ "" ∧ dateMs config.expiresAt ≤ o.nowMs then none
    else
      let emailCount := getEmailCount o.today s
      let canSendEmail := emailCount.count < maxEmailsPerScoutPerDay
      some (processSources config.query canSendEmail o.src config.sources 0 s)

/-- The cycle loop, fuel-bounded; returns the final state, the number of
cycles entered, and the concatenated trace. -/
def runCycles (dateMs : String → Int) (os : Nat → CycleOracle) :
    Nat → Nat → StoreState → StoreState × Nat × List Action
  | 0, _, s => (s, 0, [])
  | fuel + 1, cycle, s =>
    match runCycle dateMs (os cycle) s with
    | none => (s, 1, [])
    | some p =>
      let r := runCycles dateMs os fuel (cycle + 1) p.1
      (r.1, r.2.1 + 1, p.2 ++ r.2.2)

/-- `ScoutWorkflow.run`: `for (let cycle = 0; cycle < maxCycles; cycle++)`. -/
def runEngine (dateMs : String → Int) (os : Nat → CycleOracle) (s : StoreState) :
    StoreState × Nat × List Action :=
  runCycles dateMs os maxCycles 0 s

/-! ## Control plane: create (`worker/index.ts`, `handleCreateScout`) -/

/-- The create request body (`worker/types.ts`, `CreateScoutRequest`);
the optional `expiresAt` instant as epoch milliseconds. -/
structure CreateScoutRequest where
  query : String
  email : String
  expiresAt : Option Int
deriving DecidableEq, Repr

/-- JavaScript `String.prototype.trim()`: strip leading and trailing
whitespace. -/
def trimString (s : String) : String :=
  String.mk (((s.data.dropWhile Char.isWhitespace).reverse.dropWhile
    Char.isWhitespace).reverse)

/-- JavaScript `String.prototype.includes` for a single character. -/
def containsChar (s : String) (c : Char) : Bool :=
  s.data.any (fun x => x == c)

/-- Modelled from the spec: the `expiresAt` computation of the create
handler, which is missing from the bundled `worker/index.ts` (that version
predates the `expiresAt` feature).  Per §4.3: "Compute `expiresAt` from the
optional client value (must be in the future, within the maximum lifetime)
or default `createdAt + defaultLifetimeHours`", with a user-supplied value
beyond `maxLifetimeHours` rejected at create.  Instants are epoch
milliseconds; `createdAtMs` is the creation instant, which is also the
current time at validation. -/
def computeExpiresAt (createdAtMs : Int) (clientExpiresAt : Option Int) :
    Except String Int :=
  match clientExpiresAt with
  | none => Except.ok (createdAtMs + ((defaultLifetimeHours * msPerHour : Nat) : Int))
  | some t =>
    if t ≤ createdAtMs then Except.error "expiresAt must be in the future"
    else if createdAtMs + ((maxLifetimeHours * msPerHour : Nat) : Int) < t then
      Except.error "expiresAt exceeds the maximum scout lifetime"
    else Except.ok t

/-- The create handler: validation of `query` (non-empty after trim) and
`email` (non-empty after trim, contains `@`) as in the bundled
`worker/index.ts`; then the spec-modelled `expiresAt` computation; on
success the config is written to the store (timestamps rendered with
`toString`) and `201 {scoutId}` returned, on failure `400` with the store
untouched.  The result is `(store, status, scoutId?)`. -/
def createScout (req : CreateScoutRequest) (scoutId : String)
    (createdAtMs : Int) (sources : List Source) (s : StoreState) :
    StoreState × Nat × Option String :=
  if trimString req.query == "" then (s, 400, none)
  else if trimString req.email == "" || !(containsChar req.email '@') then (s, 400, none)
  else
    match computeExpiresAt createdAtMs req.expiresAt with
    | Except.error _ => (s, 400, none)
    | Except.ok expiry =>
      ((saveConfig ⟨scoutId, trimString req.query, trimString req.email,
          toString createdAtMs, some (toString expiry), sources⟩ s).1,
       201, some scoutId)

/-! ## Derived notions used by the statements -/

/-- The email-counter table in its reachable shape: at most one row
(`incrementEmailCount` retains only today's row, and the table starts
empty) and no day's count above the limit. -/
def counterBounded (s : StoreState) : Prop :=
  s.emailCounter.length ≤ 1 ∧
  ∀ r ∈ s.emailCounter, r.count ≤ maxEmailsPerScoutPerDay

/-- A store one cycle past baseline: one source whose snapshot hash is
`"h0"`, no events, no emails yet. -/
def notifiedDemoStore : StoreState :=
  ⟨some ⟨"id1", "q", "u@e.com", "0", ""⟩,
   [⟨"u1", "L1", "html_diff", "h0", "old text", "t0"⟩],
   [], []⟩

/-- A cycle where the fetch succeeds with new content, the analyzer reports
an event and the dedup check passes. -/
def notifiedDemoOracle : CycleOracle :=
  ⟨0, "2025-01-01",
   fun _ => ⟨some ⟨"new text", "h1"⟩, ⟨true, "sum", "tl", [], [], false⟩, false,
             "t1", "t2", "2025-01-01"⟩⟩

/-- The outcome of that cycle. -/
def notifiedDemoRun : StoreState × List Action :=
  (runCycle (fun _ => 0) notifiedDemoOracle notifiedDemoStore).getD (emptyStore, [])

/-- A store with two configured sources past baseline and nine emails
already sent today. -/
def overshootStore : StoreState :=
  ⟨some ⟨"id1", "q", "u@e.com", "0", ""⟩,
   [⟨"u1", "L1", "html_diff", "h0", "o1", "t0"⟩,
    ⟨"u2", "L2", "html_diff", "h0", "o2", "t0"⟩],
   [], [⟨"2025-01-01", 9⟩]⟩

/-- A cycle where both sources fetch new content, the analyzer reports an
event for each and neither is a duplicate. -/
def overshootOracle : CycleOracle :=
  ⟨0, "2025-01-01",
   fun _ => ⟨some ⟨"new", "h1"⟩, ⟨true, "s", "t", [], [], false⟩, false,
             "t1", "t2", "2025-01-01"⟩⟩

/-- The outcome of that cycle. -/
def overshootRun : StoreState × List Action :=
  (runCycle (fun _ => 0) overshootOracle overshootStore).getD (emptyStore, [])

/-! ## Helper lemmas about the store operations -/

theorem recordEvent_emailCounter (e : EventIn) (s : StoreState) :
    (recordEvent e s).1.emailCounter = s.emailCounter := by
  unfold recordEvent; split <;> rfl

theorem recordEvent_sources (e : EventIn) (s : StoreState) :
    (recordEvent e s).1.sources = s.sources := by
  unfold recordEvent; split <;> rfl

theorem saveSnapshot_emailCounter (b : SnapshotIn) (now : String) (s : StoreState) :
    (saveSnapshot b now s).1.emailCounter = s.emailCounter := rfl

theorem saveSnapshot_events (b : SnapshotIn) (now : String) (s : StoreState) :
    (saveSnapshot b now s).1.events = s.events := rfl

theorem saveSnapshot_sources_length (b : SnapshotIn) (now : String) (s : StoreState) :
    (saveSnapshot b now s).1.sources.length = s.sources.length := by
  simp [saveSnapshot]

theorem incrementEmailCount_sources (d : String) (s : StoreState) :
    (incrementEmailCount d s).1.sources = s.sources := rfl

theorem incrementEmailCount_events (d : String) (s : StoreState) :
    (incrementEmailCount d s).1.events = s.events := rfl

/-- The per-source body either leaves the event log unchanged or appends
exactly the one row built from the fetched hash, the stored snapshot hash
and the analyzer output. -/
theorem processSource_events_cases (query : String) (canSend : Bool) (src : Source)
    (o : SrcOracle) (s : StoreState) :
    (processSource query canSend src o s).1.events = s.events ∨
    ∃ fr, o.fetch = some fr ∧
      (processSource query canSend src o s).1.events = s.events ++
        [⟨hashText (src.url ++ "|" ++
            ((getSnapshot s src.url).map (fun t => t.contentHash)).getD "" ++ "|" ++ fr.hash),
          src.url, src.label, o.analysis.summary, o.analysis.tldr, o.analysis.highlights,
          o.analysis.articles, if o.analysis.is_breaking then 1 else 0, o.detectedAt, 0⟩] := by
  rcases hf : o.fetch with _ | fr
  · left; simp [processSource, hf]
  · simp only [processSource, hf]
    unfold recordEvent
    repeat' split
    all_goals first
      | exact Or.inl rfl
      | exact Or.inr ⟨fr, rfl, rfl⟩

/-! ## C3: idempotency of `recordEvent` -/

/-- C3 (counterexample): the claim quantifies over every store state, but on
a store already holding the event, calling `recordEvent` twice grows the log
by zero rows, not one. -/
theorem c3_counterexample :
    ¬ ((recordEvent ⟨"e1", "u1", "L1", "sum", "tl", [], [], false, "d1"⟩
          ((recordEvent ⟨"e1", "u1", "L1", "sum", "tl", [], [], false, "d1"⟩
            ⟨none, [], [⟨"e1", "u1", "L1", "sum", "tl", [], [], 0, "d1", 0⟩], []⟩).1)).1.events.length =
        (⟨none, [], [⟨"e1", "u1", "L1", "sum", "tl", [], [], 0, "d1", 0⟩], []⟩ : StoreState).events.length + 1) := by
  decide

/-- C3 (amended): when the event's `eventId` is not yet in the log, calling
`recordEvent(e)` twice grows the log by exactly one row, the second call
being a silent no-op that reports the duplicate (when the id is already
present both calls are no-ops); and `recordEvent` preserves uniqueness of
`eventId`s, so every `eventId` has at most one row. -/
theorem c3_recordEvent_idempotent :
    (∀ (e : EventIn) (s : StoreState), (∀ r ∈ s.events, r.eventId ≠ e.eventId) →
      (recordEvent e (recordEvent e s).1).1.events.length = s.events.length + 1 ∧
      (recordEvent e (recordEvent e s).1).1 = (recordEvent e s).1 ∧
      (recordEvent e (recordEvent e s).1).2.duplicate = true ∧
      (recordEvent e s).2.duplicate = false) ∧
    (∀ (e : EventIn) (s : StoreState),
      (s.events.map (fun r => r.eventId)).Nodup →
      ((recordEvent e s).1.events.map (fun r => r.eventId)).Nodup) := by
  constructor
  · intro e s h
    have h1 : s.events.any (fun r => r.eventId == e.eventId) = false := by
      rw [List.any_eq_false]
      intro r hr
      simpa using h r hr
    have h2 : ∀ tail : List EventRow,
        (s.events ++
          ⟨e.eventId, e.sourceUrl, e.sourceLabel, e.summary, e.tldr, e.highlights,
           e.articles, if e.isBreaking then 1 else 0, e.detectedAt, 0⟩ :: tail).any
          (fun r => r.eventId == e.eventId) = true := by
      intro tail
      simp [List.any_append]
    simp [recordEvent, h1, h2]
  · intro e s h
    unfold recordEvent
    split
    · exact h
    · next hne =>
      rw [List.map_append, List.nodup_append]
      refine ⟨h, by simp, ?_⟩
      intro x hx
      simp only [List.map_cons, List.map_nil, List.mem_cons, List.not_mem_nil, or_false]
      intro heq
      apply hne
      rw [List.any_eq_true]
      obtain ⟨r, hr, hrid⟩ := List.mem_map.mp hx
      exact ⟨r, hr, by simp [hrid, heq]⟩

/-- C3 (witness): inserting a fresh event twice into the empty store. -/
theorem c3_witness :
    ((recordEvent ⟨"e1", "u1", "L1", "sum", "tl", [], [], false, "d1"⟩
        ((recordEvent ⟨"e1", "u1", "L1", "sum", "tl", [], [], false, "d1"⟩ emptyStore).1)).1.events.length =
      emptyStore.events.length + 1) ∧
    ((recordEvent ⟨"e1", "u1", "L1", "sum", "tl", [], [], false, "d1"⟩ emptyStore).1.events.map
        (fun r => r.eventId)).Nodup := by
  exact ⟨(c3_recordEvent_idempotent.1 _ emptyStore (by simp [emptyStore])).1,
         c3_recordEvent_idempotent.2 _ emptyStore (by simp [emptyStore])⟩

/-! ## C7: safe defaults on unparseable model output -/

/-- C7: when no JSON object can be extracted from the model response (or
parsing what was extracted throws), `analyzeChange` returns its safe default
with `is_event = false`, and `isDuplicateEvent` returns `false`. -/
theorem c7_parse_fail_defaults :
    (∀ (jsonParse : String → Option AnalysisJson) (text : String),
       (extractBracedGreedy text = none ∨
        ∀ j, extractBracedGreedy text = some j → jsonParse j = none) →
       analyzeChange jsonParse text = parseFailAnalysis ∧
       (analyzeChange jsonParse text).is_event = false) ∧
    (∀ (jsonParse : String → Option DupJson) (text : String) (prevs : List String),
       (extractBracedLazy text = none ∨
        ∀ j, extractBracedLazy text = some j → jsonParse j = none) →
       isDuplicateEvent jsonParse text prevs = false) := by
  constructor
  · intro p text h
    have key : analyzeChange p text = parseFailAnalysis := by
      cases hE : extractBracedGreedy text with
      | none => simp [analyzeChange, hE]
      | some j =>
        rcases h with h | h
        · rw [hE] at h; cases h
        · simp [analyzeChange, hE, h j hE]
    exact ⟨key, by rw [key]; rfl⟩
  · intro p text prevs h
    unfold isDuplicateEvent
    split
    · rfl
    · cases hE : extractBracedLazy text with
      | none => simp
      | some j =>
        rcases h with h | h
        · rw [hE] at h; cases h
        · simp [h j hE]

/-- C7 (witness): a response with no JSON object at all, and a parse oracle
that always throws. -/
theorem c7_witness :
    analyzeChange (fun _ => none) "model refused to answer" = parseFailAnalysis ∧
    isDuplicateEvent (fun _ => none) "still not valid json" ["prior summary"] = false :=
  ⟨(c7_parse_fail_defaults.1 (fun _ => none) "model refused to answer"
      (Or.inr (fun _ _ => rfl))).1,
   c7_parse_fail_defaults.2 (fun _ => none) "still not valid json" ["prior summary"]
      (Or.inr (fun _ _ => rfl))⟩

/-! ## C10: `saveSnapshot` frame and `saveConfig` installation -/

theorem find?_upsertSource_self (src : Source) (rows : List SourceRow) :
    (upsertSource src rows).find? (fun r => r.url == src.url) =
      some ⟨src.url, src.label, src.strategy, "", "", ""⟩ := by
  induction rows with
  | nil => simp [upsertSource]
  | cons r rs ih =>
    by_cases h : r.url = src.url
    · simp [upsertSource, h]
    · simp only [upsertSource, beq_iff_eq, if_neg h]
      rw [List.find?_cons_of_neg _ (by simpa using h), ih]

theorem find?_upsertSource_other (src : Source) (u : String) (h : src.url ≠ u)
    (rows : List SourceRow) :
    (upsertSource src rows).find? (fun r => r.url == u) =
      rows.find? (fun r => r.url == u) := by
  induction rows with
  | nil => simp [upsertSource, h]
  | cons r rs ih =>
    by_cases hr : r.url = src.url
    · have hru : r.url ≠ u := hr ▸ h
      simp only [upsertSource, beq_iff_eq, if_pos hr]
      rw [List.find?_cons_of_neg _ (by simpa using h),
          List.find?_cons_of_neg _ (by simpa using hru)]
    · simp only [upsertSource, beq_iff_eq, if_neg hr]
      by_cases hu : r.url = u
      · rw [List.find?_cons_of_pos _ (by simpa using hu),
            List.find?_cons_of_pos _ (by simpa using hu)]
      · rw [List.find?_cons_of_neg _ (by simpa using hu),
            List.find?_cons_of_neg _ (by simpa using hu), ih]

theorem foldl_upsert_preserve (u : String) :
    ∀ (srcs : List Source) (rows : List SourceRow), (∀ src ∈ srcs, src.url ≠ u) →
    (srcs.foldl (fun rows src => upsertSource src rows) rows).find? (fun r => r.url == u) =
      rows.find? (fun r => r.url == u) := by
  intro srcs
  induction srcs with
  | nil => intro rows _; rfl
  | cons a rest ih =>
    intro rows h
    rw [List.foldl_cons, ih _ (fun x hx => h x (List.mem_cons_of_mem a hx)),
        find?_upsertSource_other a u (h a (List.mem_cons_self a rest)) rows]

theorem foldl_upsert_find (u : String) :
    ∀ (srcs : List Source) (rows : List SourceRow), (∃ src ∈ srcs, src.url = u) →
    ∃ lab strat, (srcs.foldl (fun rows src => upsertSource src rows) rows).find?
      (fun r => r.url == u) = some ⟨u, lab, strat, "", "", ""⟩ := by
  intro srcs
  induction srcs with
  | nil => rintro rows ⟨src, h, _⟩; cases h
  | cons a rest ih =>
    rintro rows ⟨src, hmem, hurl⟩
    by_cases hrest : ∃ t ∈ rest, t.url = u
    · exact ih (upsertSource a rows) hrest
    · have ha : a.url = u := by
        rcases List.mem_cons.mp hmem with h | h
        · rw [← h]; exact hurl
        · exact absurd ⟨src, h, hurl⟩ hrest
      subst ha
      rw [List.foldl_cons,
          foldl_upsert_preserve a.url rest _ (fun t ht hc => hrest ⟨t, ht, hc⟩)]
      exact ⟨a.label, a.strategy, find?_upsertSource_self a rows⟩

/-- C10: a `saveSnapshot` whose url has no row in the `sources` table leaves
the store completely unchanged yet still answers `{ok: true}`; `saveSnapshot`
never creates or removes source rows (so snapshots exist only for urls
installed by `saveConfig`); and every source installed by `saveConfig` starts
with `lastHash = ""` and `lastText = ""`, so its first poll reads a snapshot
with an empty `contentHash` and takes the baseline branch. -/
theorem c10_saveSnapshot_frame :
    (∀ (b : SnapshotIn) (now : String) (s : StoreState),
       (∀ r ∈ s.sources, r.url ≠ b.url) →
       saveSnapshot b now s = (s, true)) ∧
    (∀ (b : SnapshotIn) (now : String) (s : StoreState),
       (saveSnapshot b now s).1.sources.map (fun r => r.url) = s.sources.map (fun r => r.url) ∧
       (saveSnapshot b now s).2 = true) ∧
    (∀ (cfg : ScoutConfigIn) (s : StoreState), ∀ src ∈ cfg.sources,
       ∃ snap, getSnapshot (saveConfig cfg s).1 src.url = some snap ∧
         snap.contentHash = "" ∧ snap.text = "") := by
  refine ⟨?_, ?_, ?_⟩
  · intro b now s h
    unfold saveSnapshot
    have hmap : s.sources.map (fun r =>
        if r.url == b.url then
          ⟨r.url, r.label, r.strategy, b.contentHash, b.text.take maxSnapshotTextLength, now⟩
        else r) = s.sources := by
      have : ∀ r ∈ s.sources, (if r.url == b.url then
          (⟨r.url, r.label, r.strategy, b.contentHash, b.text.take maxSnapshotTextLength, now⟩ : SourceRow)
        else r) = id r := by
        intro r hr
        simp [h r hr]
      rw [List.map_congr_left this, List.map_id]
    rw [hmap]
  · intro b now s
    refine ⟨?_, rfl⟩
    simp only [saveSnapshot]
    rw [List.map_map]
    apply List.map_congr_left
    intro r _
    by_cases hc : r.url = b.url <;> simp [Function.comp, hc]
  · intro cfg s src hmem
    obtain ⟨lab, strat, hfind⟩ :=
      foldl_upsert_find src.url cfg.sources s.sources ⟨src, hmem, rfl⟩
    exact ⟨⟨src.url, "", "", ""⟩, by simp [getSnapshot, saveConfig, hfind], rfl, rfl⟩

/-- C10 (witness): a snapshot write for an uninstalled url is a no-op that
returns ok, and a freshly installed source reads back an empty-hash
snapshot. -/
theorem c10_witness :
    saveSnapshot ⟨"u2", "h", "t"⟩ "now"
        ⟨none, [⟨"u1", "L1", "html_diff", "h0", "txt", "t0"⟩], [], []⟩ =
      (⟨none, [⟨"u1", "L1", "html_diff", "h0", "txt", "t0"⟩], [], []⟩, true) ∧
    ∃ snap, getSnapshot (saveConfig ⟨"id", "q", "e@x", "c", none,
        [⟨"u1", "L1", "html_diff"⟩]⟩ emptyStore).1 "u1" = some snap ∧
      snap.contentHash = "" ∧ snap.text = "" :=
  ⟨c10_saveSnapshot_frame.1 ⟨"u2", "h", "t"⟩ "now"
      ⟨none, [⟨"u1", "L1", "html_diff", "h0", "txt", "t0"⟩], [], []⟩ (by decide),
   c10_saveSnapshot_frame.2.2 ⟨"id", "q", "e@x", "c", none, [⟨"u1", "L1", "html_diff"⟩]⟩
      emptyStore ⟨"u1", "L1", "html_diff"⟩ (by decide)⟩

/-! ## C4: the baseline cycle writes the snapshot but never events -/

/-- C4: when the prior snapshot is absent or carries an empty `contentHash`,
the per-source body writes the new snapshot and stops: no event is recorded,
no email sent, the trace holds only the snapshot write — for every analyzer
verdict `o.analysis` and dedup verdict `o.isDup`. -/
theorem c4_baseline_no_event :
    ∀ (query : String) (canSend : Bool) (src : Source) (o : SrcOracle)
      (s : StoreState) (fr : FetchResult),
    o.fetch = some fr →
    (getSnapshot s src.url = none ∨
     ∃ snap, getSnapshot s src.url = some snap ∧ snap.contentHash = "") →
    processSource query canSend src o s =
      ((saveSnapshot ⟨src.url, fr.hash, fr.text⟩ o.snapNow s).1,
       [Action.savedSnapshot src.url fr.hash fr.text]) ∧
    (processSource query canSend src o s).1.events = s.events ∧
    (processSource query canSend src o s).1.emailCounter = s.emailCounter := by
  intro query canSend src o s fr hf hb
  have hold : ((getSnapshot s src.url).map (fun t => t.contentHash)).getD "" = "" := by
    rcases hb with h | ⟨snap, h, hh⟩
    · simp [h]
    · simp [h, hh]
  have key : processSource query canSend src o s =
      ((saveSnapshot ⟨src.url, fr.hash, fr.text⟩ o.snapNow s).1,
       [Action.savedSnapshot src.url fr.hash fr.text]) := by
    simp only [processSource, hf, hold]
    simp
  refine ⟨key, ?_, ?_⟩
  · rw [key]; rfl
  · rw [key]; rfl

/-- C4 (witness): a source with no prior snapshot row, an analyzer that
would report an event, a passing dedup check and a free email budget: the
baseline cycle still only writes the snapshot. -/
theorem c4_witness :
    processSource "q" true ⟨"u1", "L1", "html_diff"⟩
        ⟨some ⟨"new", "h1"⟩, ⟨true, "s", "t", [], [], true⟩, false, "t1", "d1", "2025-01-01"⟩
        emptyStore =
      ((saveSnapshot ⟨"u1", "h1", "new"⟩ "t1" emptyStore).1,
       [Action.savedSnapshot "u1" "h1" "new"]) :=
  (c4_baseline_no_event "q" true ⟨"u1", "L1", "html_diff"⟩
    ⟨some ⟨"new", "h1"⟩, ⟨true, "s", "t", [], [], true⟩, false, "t1", "d1", "2025-01-01"⟩
    emptyStore ⟨"new", "h1"⟩ rfl (Or.inl rfl)).1

/-! ## C5: event ids are the SHA-256 of `sourceUrl | oldHash | newHash` -/

/-- C5: every event row the per-source body adds to the log carries
`eventId = hashText(sourceUrl ++ "|" ++ oldHash ++ "|" ++ newHash)` — the
lowercase-hex SHA-256 digest of that joined string — where `oldHash` is the
stored snapshot hash and `newHash` the freshly fetched one; and `hashText`
is bit-exact SHA-256 (FIPS 180-4 test vector). -/
theorem c5_eventId_hash :
    (∀ (query : String) (canSend : Bool) (src : Source) (o : SrcOracle) (s : StoreState),
       ∀ r ∈ (processSource query canSend src o s).1.events,
         r ∈ s.events ∨ ∃ fr, o.fetch = some fr ∧ r.sourceUrl = src.url ∧
           r.eventId = hashText (src.url ++ "|" ++
             ((getSnapshot s src.url).map (fun t => t.contentHash)).getD "" ++ "|" ++ fr.hash)) ∧
    hashText "abc" = "ba7816bf8f01cfea414140de5dae2223b00361a396177a9cb410ff61f20015ad" := by
  constructor
  · intro query canSend src o s r hr
    rcases processSource_events_cases query canSend src o s with h | ⟨fr, hf, h⟩
    · rw [h] at hr
      exact Or.inl hr
    · rw [h] at hr
      rcases List.mem_append.mp hr with hr | hr
      · exact Or.inl hr
      · rw [List.mem_singleton] at hr
        subst hr
        exact Or.inr ⟨fr, hf, rfl, rfl⟩
  · decide

/-- C5 (witness): a concrete non-baseline cycle records the event keyed by
the digest of `"u1|h0|h1"`, and the SHA-256 test vector. -/
theorem c5_witness :
    hashText "abc" = "ba7816bf8f01cfea414140de5dae2223b00361a396177a9cb410ff61f20015ad" ∧
    ((⟨"e1", "u1", "L1", "s", "t", [], [], 0, "d1", 0⟩ : EventRow) ∈
        (⟨none, [], [⟨"e1", "u1", "L1", "s", "t", [], [], 0, "d1", 0⟩], []⟩ : StoreState).events ∨
      ∃ fr, (some (⟨"new", "h1"⟩ : FetchResult) = some fr) ∧
        (⟨"e1", "u1", "L1", "s", "t", [], [], 0, "d1", 0⟩ : EventRow).sourceUrl = "u1" ∧
        (⟨"e1", "u1", "L1", "s", "t", [], [], 0, "d1", 0⟩ : EventRow).eventId =
          hashText ("u1" ++ "|" ++
            ((getSnapshot ⟨none, [], [⟨"e1", "u1", "L1", "s", "t", [], [], 0, "d1", 0⟩], []⟩ "u1").map
              (fun t => t.contentHash)).getD "" ++ "|" ++ fr.hash)) :=
  ⟨c5_eventId_hash.2,
   c5_eventId_hash.1 "q" true ⟨"u1", "L1", "html_diff"⟩
     ⟨some ⟨"new", "h1"⟩, ⟨true, "s", "t", [], [], false⟩, false, "t1", "d1", "2025-01-01"⟩
     ⟨none, [], [⟨"e1", "u1", "L1", "s", "t", [], [], 0, "d1", 0⟩], []⟩
     ⟨"e1", "u1", "L1", "s", "t", [], [], 0, "d1", 0⟩ (by decide)⟩

/-! ## C6: the analyzer is always invoked after baseline -/

/-- C6: on a non-baseline cycle whose fetch succeeds, the per-source body
invokes the change analyzer on (previous text, fetched text, query) — with
no hash-equality short-circuit, since the stored and fetched hashes here are
unconstrained and may be equal. -/
theorem c6_analyzer_always_invoked :
    ∀ (query : String) (canSend : Bool) (src : Source) (o : SrcOracle)
      (s : StoreState) (fr : FetchResult) (snap : SourceSnapshot),
    o.fetch = some fr →
    getSnapshot s src.url = some snap →
    snap.contentHash ≠ "" →
    Action.analyzed snap.text fr.text query ∈ (processSource query canSend src o s).2 := by
  intro query canSend src o s fr snap hf hsnap hneq
  simp only [processSource, hf, hsnap, Option.map_some', Option.getD_some]
  rw [if_neg (by simpa using hneq)]
  split
  · split
    · simp
    · split <;> simp
  · simp

/-- C6 (witness): the analyzer is invoked even when the fetched hash equals
the stored one (`"h1"` on both sides). -/
theorem c6_witness :
    Action.analyzed "old" "new" "q" ∈
      (processSource "q" true ⟨"u1", "L1", "html_diff"⟩
        ⟨some ⟨"new", "h1"⟩, ⟨false, "s", "t", [], [], false⟩, false, "t1", "d1", "2025-01-01"⟩
        ⟨none, [⟨"u1", "L1", "html_diff", "h1", "old", "t0"⟩], [], []⟩).2 :=
  c6_analyzer_always_invoked "q" true ⟨"u1", "L1", "html_diff"⟩
    ⟨some ⟨"new", "h1"⟩, ⟨false, "s", "t", [], [], false⟩, false, "t1", "d1", "2025-01-01"⟩
    ⟨none, [⟨"u1", "L1", "html_diff", "h1", "old", "t0"⟩], [], []⟩
    ⟨"new", "h1"⟩ ⟨"u1", "h1", "old", "t0"⟩ rfl rfl (by decide)

/-! ## C2: the stored `notified` flag after a successful email -/

/-- C2 (code evaluation at the failing input): a cycle past baseline whose
analyzer reports an event, whose dedup check passes and whose email budget
is free dispatches the email (the `emailed` action is in the trace and the
counter reaches 1), yet `getEvents` still returns the event with
`notified = false`: no code path ever updates the `notified` column after
dispatch. -/
theorem c2_notified_stays_false :
    Action.emailed (hashText "u1|h0|h1") ∈ notifiedDemoRun.2 ∧
    (getEvents notifiedDemoRun.1).map (fun e => (e.eventId, e.notified)) =
      [(hashText "u1|h0|h1", false)] ∧
    notifiedDemoRun.1.emailCounter = [⟨"2025-01-01", 1⟩] := by
  decide

/-! ## C1: `expiresAt` at create -/

/-- C1: for a valid query and email, the create path stores the
client-supplied `expiresAt` when it is in the future and within the maximum
lifetime; it rejects with 400 — leaving the store untouched, creating no
scout — a value beyond `maxLifetimeHours` past `createdAt` or one not in
the future; and with no client value it stores
`createdAt + defaultLifetimeHours`. -/
theorem c1_create_expiresAt :
    ∀ (req : CreateScoutRequest) (scoutId : String) (createdAtMs : Int)
      (sources : List Source) (s : StoreState),
    trimString req.query ≠ "" → trimString req.email ≠ "" → containsChar req.email '@' = true →
    ((∀ t, req.expiresAt = some t → createdAtMs < t →
        t ≤ createdAtMs + (maxLifetimeHours * msPerHour : Nat) →
        (createScout req scoutId createdAtMs sources s).2.1 = 201 ∧
        ((createScout req scoutId createdAtMs sources s).1.config.map (fun c => c.expiresAt)) =
          some (toString t)) ∧
     (∀ t, req.expiresAt = some t → createdAtMs + (maxLifetimeHours * msPerHour : Nat) < t →
        createScout req scoutId createdAtMs sources s = (s, 400, none)) ∧
     (∀ t, req.expiresAt = some t → t ≤ createdAtMs →
        createScout req scoutId createdAtMs sources s = (s, 400, none)) ∧
     (req.expiresAt = none →
        (createScout req scoutId createdAtMs sources s).2.1 = 201 ∧
        ((createScout req scoutId createdAtMs sources s).1.config.map (fun c => c.expiresAt)) =
          some (toString (createdAtMs + (defaultLifetimeHours * msPerHour : Nat))))) := by
  intro req scoutId createdAtMs sources s hquery hemail hat
  have hq : (trimString req.query == "") = false := by simpa using hquery
  have he : (trimString req.email == "" || !containsChar req.email '@') = false := by
    simp [hat]
    simpa using hemail
  refine ⟨?_, ?_, ?_, ?_⟩
  · intro t ht h1 h2
    have hc : computeExpiresAt createdAtMs req.expiresAt = Except.ok t := by
      rw [ht]
      simp only [computeExpiresAt]
      rw [if_neg (not_le.mpr h1), if_neg (not_lt.mpr h2)]
    constructor
    · simp [createScout, hq, he, hc]
    · simp [createScout, hq, he, hc, saveConfig]
  · intro t ht h1
    have hc : computeExpiresAt createdAtMs req.expiresAt =
        Except.error "expiresAt exceeds the maximum scout lifetime" := by
      rw [ht]
      simp only [computeExpiresAt]
      rw [if_neg (by omega), if_pos h1]
    simp [createScout, hq, he, hc]
  · intro t ht h1
    have hc : computeExpiresAt createdAtMs req.expiresAt =
        Except.error "expiresAt must be in the future" := by
      rw [ht]
      simp only [computeExpiresAt]
      rw [if_pos h1]
    simp [createScout, hq, he, hc]
  · intro ht
    have hc : computeExpiresAt createdAtMs req.expiresAt =
        Except.ok (createdAtMs + (defaultLifetimeHours * msPerHour : Nat)) := by
      rw [ht]
      rfl
    constructor
    · simp [createScout, hq, he, hc]
    · simp [createScout, hq, he, hc, saveConfig]

/-- C1 (witness): a client `expiresAt` far beyond the 168-hour cap is
rejected with 400 and no scout is created, while omitting it stores
`createdAt + 72 h`. -/
theorem c1_witness :
    createScout ⟨"gpu drops", "u@e.com", some 700000000000⟩ "id0" 0 [] emptyStore =
      (emptyStore, 400, none) ∧
    (createScout ⟨"gpu drops", "u@e.com", none⟩ "id0" 0 [] emptyStore).2.1 = 201 ∧
    ((createScout ⟨"gpu drops", "u@e.com", none⟩ "id0" 0 [] emptyStore).1.config.map
        (fun c => c.expiresAt)) =
      some (toString ((0 : Int) + (defaultLifetimeHours * msPerHour : Nat))) :=
  ⟨(c1_create_expiresAt ⟨"gpu drops", "u@e.com", some 700000000000⟩ "id0" 0 [] emptyStore
      (by decide) (by decide) (by decide)).2.1 700000000000 rfl (by decide),
   (c1_create_expiresAt ⟨"gpu drops", "u@e.com", none⟩ "id0" 0 [] emptyStore
      (by decide) (by decide) (by decide)).2.2.2 rfl |>.1,
   (c1_create_expiresAt ⟨"gpu drops", "u@e.com", none⟩ "id0" 0 [] emptyStore
      (by decide) (by decide) (by decide)).2.2.2 rfl |>.2⟩

/-! ## C9: the cycle loop is bounded by `maxCycles` -/

theorem runCycles_count_le (dateMs : String → Int) (os : Nat → CycleOracle) :
    ∀ (fuel cycle : Nat) (s : StoreState),
    (runCycles dateMs os fuel cycle s).2.1 ≤ fuel := by
  intro fuel
  induction fuel with
  | zero =>
    intro cycle s
    simp [runCycles]
  | succ n ih =>
    intro cycle s
    cases h : runCycle dateMs (os cycle) s with
    | none => simp [runCycles, h]
    | some p =>
      have := ih (cycle + 1) p.1
      simp only [runCycles, h]
      omega

/-- C9: every engine run performs at most `maxCycles = 200` cycles before
returning, for every store state and every sequence of fetch, analyzer,
dedup and store outcomes. -/
theorem c9_cycle_bound :
    ∀ (dateMs : String → Int) (os : Nat → CycleOracle) (s : StoreState),
    (runEngine dateMs os s).2.1 ≤ maxCycles ∧ maxCycles = 200 :=
  fun dateMs os s => ⟨runCycles_count_le dateMs os maxCycles 0 s, rfl⟩

/-! ## C8: the daily email counter -/

theorem incrementEmailCount_counter_eq (d : String) (s : StoreState)
    (hlen : s.emailCounter.length ≤ 1) :
    (incrementEmailCount d s).1.emailCounter =
      [⟨d, (getEmailCount d s).count + 1⟩] := by
  rcases hl : s.emailCounter with _ | ⟨r, rest⟩
  · simp [incrementEmailCount, getEmailCount, hl]
  · rcases rest with _ | ⟨r2, rest2⟩
    · by_cases hr : r.dateKey = d
      · simp [incrementEmailCount, getEmailCount, hl, hr]
      · simp [incrementEmailCount, getEmailCount, hl, hr]
    · rw [hl] at hlen
      simp at hlen

theorem processSource_sources_length (query : String) (canSend : Bool) (src : Source)
    (o : SrcOracle) (s : StoreState) :
    (processSource query canSend src o s).1.sources.length = s.sources.length := by
  rcases hf : o.fetch with _ | fr
  · simp [processSource, hf]
  · simp only [processSource, hf]
    unfold recordEvent
    repeat' split
    all_goals simp [saveSnapshot, incrementEmailCount]

theorem processSource_counter_cases (query : String) (canSend : Bool) (src : Source)
    (o : SrcOracle) (s : StoreState) :
    (processSource query canSend src o s).1.emailCounter = s.emailCounter ∨
    (canSend = true ∧ (processSource query canSend src o s).1.emailCounter =
      (incrementEmailCount o.emailDay s).1.emailCounter) := by
  rcases hf : o.fetch with _ | fr
  · left; simp [processSource, hf]
  · simp only [processSource, hf]
    unfold recordEvent
    repeat' split
    all_goals first
      | exact Or.inl rfl
      | (rename_i h; exact Or.inr ⟨by simpa using h, rfl⟩)

theorem runCycle_counter_inv (dateMs : String → Int) (o : CycleOracle) (s : StoreState)
    (hlen : s.sources.length ≤ 1) (hday : ∀ j, (o.src j).emailDay = o.today)
    (hinv : counterBounded s) :
    ∀ p, runCycle dateMs o s = some p →
      counterBounded p.1 ∧ p.1.sources.length ≤ 1 := by
  intro p hp
  rcases hcfg : s.config with _ | c
  · simp [runCycle, getConfig, hcfg] at hp
  · simp only [runCycle, getConfig, hcfg, Option.map_some'] at hp
    split at hp
    · cases hp
    · rw [Option.some_inj] at hp
      rcases hsrc : s.sources with _ | ⟨r, rest⟩
      · rw [hsrc] at hp
        simp only [List.map_nil, processSources] at hp
        rw [← hp]
        exact ⟨hinv, by rw [hsrc]; simp⟩
      · rcases rest with _ | ⟨r2, rest2⟩
        · rw [hsrc] at hp
          simp only [List.map_cons, List.map_nil, processSources] at hp
          rw [← hp]
          have hlen1 := processSource_sources_length c.query
            (decide ((getEmailCount o.today s).count < maxEmailsPerScoutPerDay))
            ⟨r.url, r.label, r.strategy⟩ (o.src 0) s
          constructor
          · rcases processSource_counter_cases c.query
              (decide ((getEmailCount o.today s).count < maxEmailsPerScoutPerDay))
              ⟨r.url, r.label, r.strategy⟩ (o.src 0) s with h | ⟨hcs, h⟩
            · exact ⟨by rw [h]; exact hinv.1, by rw [h]; exact hinv.2⟩
            · rw [hday 0] at h
              rw [incrementEmailCount_counter_eq o.today s hinv.1] at h
              have hlt : (getEmailCount o.today s).count < maxEmailsPerScoutPerDay :=
                of_decide_eq_true hcs
              constructor
              · rw [h]; simp
              · rw [h]
                intro x hx
                rw [List.mem_singleton] at hx
                subst hx
                exact hlt
          · rw [hlen1, hsrc]
            simp
        · rw [hsrc] at hlen
          simp at hlen

theorem runCycles_counter_inv (dateMs : String → Int) (os : Nat → CycleOracle)
    (hday : ∀ i j, ((os i).src j).emailDay = (os i).today) :
    ∀ (fuel cycle : Nat) (s : StoreState), s.sources.length ≤ 1 → counterBounded s →
    counterBounded (runCycles dateMs os fuel cycle s).1 ∧
    (runCycles dateMs os fuel cycle s).1.sources.length ≤ 1 := by
  intro fuel
  induction fuel with
  | zero =>
    intro cycle s h1 h2
    exact ⟨h2, h1⟩
  | succ n ih =>
    intro cycle s h1 h2
    cases h : runCycle dateMs (os cycle) s with
    | none => simp only [runCycles, h]; exact ⟨h2, h1⟩
    | some p =>
      obtain ⟨hc1, hc2⟩ := runCycle_counter_inv dateMs (os cycle) s h1 (hday cycle) h2 p h
      simp only [runCycles, h]
      exact ih (cycle + 1) p.1 hc2 hc1

theorem emailed_mem_processSource (query : String) (canSend : Bool) (src : Source)
    (o : SrcOracle) (s : StoreState) (eid : String) :
    Action.emailed eid ∈ (processSource query canSend src o s).2 → canSend = true := by
  rcases hf : o.fetch with _ | fr
  · simp [processSource, hf]
  · simp only [processSource, hf]
    repeat' split
    all_goals intro h
    all_goals first
      | (rename_i hcond
         simp only [Bool.and_eq_true] at hcond
         first
           | exact hcond.2.2
           | exact hcond.2)
      | simp at h

theorem emailed_mem_processSources (query : String) (canSend : Bool) (os : Nat → SrcOracle) :
    ∀ (srcs : List Source) (i : Nat) (s : StoreState) (eid : String),
    Action.emailed eid ∈ (processSources query canSend os srcs i s).2 → canSend = true := by
  intro srcs
  induction srcs with
  | nil =>
    intro i s eid h
    simp [processSources] at h
  | cons a rest ih =>
    intro i s eid h
    simp only [processSources, List.mem_append] at h
    rcases h with h | h
    · exact emailed_mem_processSource query canSend a (os i) s eid h
    · exact ih (i + 1) _ eid h

set_option maxRecDepth 4000 in
/-- C8 (counterexample): with two configured sources, `canSendEmail` is
computed once at cycle start, so a cycle starting at count 9 in which both
sources fire events pushes the day's counter to 11, past the limit of 10. -/
theorem c8_counterexample :
    overshootRun.1.emailCounter = [⟨"2025-01-01", 11⟩] ∧
    maxEmailsPerScoutPerDay < 11 := by
  decide

/-- C8 (amended): for a scout with at most one configured source (the only
shape the control plane creates) whose cycles read and bump the counter
under the same UTC date key, no counter row ever exceeds
`maxEmailsPerScoutPerDay` in any reachable state; and — for any number of
sources — an email is dispatched only when the count read at the start of
the cycle is below the limit.  (With several sources the counter can exceed
the limit by up to sources − 1 in one cycle, as the counterexample shows.) -/
theorem c8_email_limit :
    (∀ (dateMs : String → Int) (os : Nat → CycleOracle) (s : StoreState),
       (∀ i j, ((os i).src j).emailDay = (os i).today) →
       s.sources.length ≤ 1 → counterBounded s →
       counterBounded (runEngine dateMs os s).1) ∧
    (∀ (dateMs : String → Int) (o : CycleOracle) (s : StoreState) (p : StoreState × List Action),
       runCycle dateMs o s = some p → ∀ eid, Action.emailed eid ∈ p.2 →
       (getEmailCount o.today s).count < maxEmailsPerScoutPerDay) := by
  constructor
  · intro dateMs os s hday h1 h2
    exact (runCycles_counter_inv dateMs os hday maxCycles 0 s h1 h2).1
  · intro dateMs o s p hp eid hmem
    rcases hcfg : s.config with _ | c
    · simp [runCycle, getConfig, hcfg] at hp
    · simp only [runCycle, getConfig, hcfg, Option.map_some'] at hp
      split at hp
      · cases hp
      · rw [Option.some_inj] at hp
        rw [← hp] at hmem
        exact of_decide_eq_true
          (emailed_mem_processSources c.query _ o.src _ 0 s eid hmem)

/-- C8 (witness): the bound holds of a run from a fresh store under
constant same-day oracles. -/
theorem c8_witness :
    counterBounded (runEngine (fun _ => 0)
      (fun _ => ⟨0, "2025-01-01",
        fun _ => ⟨none, ⟨false, "", "", [], [], false⟩, false, "", "", "2025-01-01"⟩⟩)
      emptyStore).1 :=
  c8_email_limit.1 (fun _ => 0)
    (fun _ => ⟨0, "2025-01-01",
      fun _ => ⟨none, ⟨false, "", "", [], [], false⟩, false, "", "", "2025-01-01"⟩⟩)
    emptyStore (fun _ _ => rfl) (by decide) ⟨by decide, by decide⟩

end Terascout
